import Mathlib

/-!
Verification of the Lost & Found ML service (`src/ml-service/main.py`).

The Python service is embedded shallowly:

* Python `float` values are idealised as real numbers (`ℝ`); a vector is a
  `List ℝ`.
* A fallible operation returns `Option`/`Except`; `none`/`.error` models a
  raised Python exception.
* The external Gemini backend (`genai.embed_content`) is an arbitrary
  parameter `backend : String → Option (List ℝ)` returning the raw embedding
  response, or `none` when the call raises.
* HTTP endpoints become functions from their request data to
  `Except`-wrapped responses; an `HTTPException` becomes an error value
  carrying the status code.

Each definition is translated directly from the corresponding Python
function, named after it where Lean's lexer allows.
-/

namespace MLService

/-! ## VectorMath primitives (`_normalize_vector`, `_cosine_similarity`) -/

/-- Sum of squares of a vector; `np.linalg.norm(arr)` is its square root. -/
def sumSq (v : List ℝ) : ℝ := (v.map fun x => x * x).sum

/-- Euclidean norm, `np.linalg.norm` on a 1-D array. -/
noncomputable def norm2 (v : List ℝ) : ℝ := Real.sqrt (sumSq v)

/-- Dot product of two equal-length vectors, `np.dot` on 1-D arrays
(only evaluated by the model where the source guarantees equal sizes). -/
def dot (a b : List ℝ) : ℝ := (List.zipWith (fun x y => x * y) a b).sum

/-- Embedding of `_normalize_vector` (main.py lines 75-80): divide by the
norm when it is positive, otherwise return the vector unchanged. -/
noncomputable def normalize_vector (v : List ℝ) : List ℝ :=
  if norm2 v > 0 then v.map fun x => x / norm2 v else v

/-- Embedding of `_cosine_similarity` (main.py lines 83-92).  The result is
`some r` when the Python function returns the float `r`, and `none` when it
raises: after the explicit empty-array and zero-norm guards the source
evaluates `np.dot(a_np, b_np)`, which raises `ValueError` on 1-D arrays of
different sizes, so the mismatched-length case is `none`. -/
noncomputable def cosine_similarity (a b : List ℝ) : Option ℝ :=
  if a.length = 0 ∨ b.length = 0 then some 0
  else if norm2 a = 0 ∨ norm2 b = 0 then some 0
  else if a.length = b.length then some (dot a b / (norm2 a * norm2 b))
  else none

/-! ## CaptionEnhancer (`_enhance_caption`) -/

/-- Python's `str.strip()` on a character list: drop whitespace from both
ends. -/
def stripChars (s : List Char) : List Char :=
  ((s.dropWhile Char.isWhitespace).reverse.dropWhile Char.isWhitespace).reverse

/-- Python's `str.strip()` on strings. -/
def pyStrip (s : String) : String := String.mk (stripChars s.toList)

/-- Last character of a character list, with a default for `[]`
(the source only reads `s[-1]` on a non-empty string). -/
def lastCharD (s : List Char) : Char := s.getLastD ' '

/-- Embedding of `_enhance_caption` (main.py lines 95-104) on string input:
`if not text` guard, `.strip()`, uppercase the first character, and append a
period when the final character is not one of `.`, `!`, `?`. -/
def enhance_caption (text : String) : String :=
  if text = "" then ""
  else
    match stripChars text.toList with
    | [] => ""
    | c :: rest =>
      let s2 := Char.toUpper c :: rest
      if lastCharD s2 ∈ ['.', '!', '?'] then String.mk s2
      else String.mk (s2 ++ ['.'])


/-! ## Gemini embedding backend (`_gemini_embed_text`)

The external call `genai.embed_content` is modelled as a parameter
`backend : String → Option (List ℝ)`: `some raw` is the raw embedding list
extracted from the response, `none` means the call (or the response-format
check) raised.  The configuration flag `cfg` models `GEMINI_API_KEY` being
non-empty. -/

/-- Failure modes of `_gemini_embed_text`: the `HTTPException(503)` raised
when `GEMINI_API_KEY` is missing (main.py line 152), or any exception
escaping the backend call. -/
inductive GeminiError where
  | notConfigured
  | backendFailure
deriving DecidableEq

/-- Embedding of `_gemini_embed_text` (main.py lines 145-169): raise 503 when
not configured, otherwise call the backend and return the normalized vector. -/
noncomputable def gemini_embed_text (cfg : Bool) (backend : String → Option (List ℝ))
    (t : String) : Except GeminiError (List ℝ) :=
  if cfg = false then .error .notConfigured
  else
    match backend t with
    | none => .error .backendFailure
    | some emb => .ok (normalize_vector emb)

/-! ## `/embedding` and `/embeddings/batch` endpoints -/

/-- Failure modes of the single-embedding endpoint: 400 for empty text, or a
propagated Gemini failure. -/
inductive EmbedError where
  | badRequest
  | geminiFailed (e : GeminiError)
deriving DecidableEq

/-- Embedding of `embedding_endpoint` (main.py lines 260-276). -/
noncomputable def embedding_endpoint (cfg : Bool) (backend : String → Option (List ℝ))
    (text : String) : Except EmbedError (List ℝ) :=
  if text = "" then .error .badRequest
  else
    match gemini_embed_text cfg backend text with
    | .ok emb => .ok emb
    | .error e => .error (.geminiFailed e)

/-- Embedding of the `worker` closure inside `embeddings_batch_endpoint`
(main.py lines 289-295): each text is embedded, and any failure is replaced
by the length-1 zero vector `[0.0]`. -/
noncomputable def batchWorker (cfg : Bool) (backend : String → Option (List ℝ))
    (t : String) : List ℝ :=
  match gemini_embed_text cfg backend t with
  | .ok e => e
  | .error _ => [0]

/-- Embedding of `embeddings_batch_endpoint` (main.py lines 279-299): 400
(`none`) on an empty list, otherwise the workers' results gathered in input
order (`asyncio.gather` preserves the order of the task list). -/
noncomputable def embeddings_batch_endpoint (cfg : Bool)
    (backend : String → Option (List ℝ)) (texts : List String) :
    Option (List (List ℝ)) :=
  if texts = [] then none
  else some (texts.map (batchWorker cfg backend))

/-! ## `/search` endpoint -/

/-- One entry of `request.item_descriptions`.  The Python dict's optional
`embedding` field is a list; `[]` models a missing/`None`/empty value (all
falsy for `item.get("embedding")`). -/
structure Item where
  id : String
  title : String
  description : String
  category : String
  location : String
  embedding : List ℝ

/-- Display text built for an item that needs embedding (main.py lines
328-335): space-join of title, description, category, location, stripped,
with the fallback `"item"` when empty. -/
def buildDesc (it : Item) : String :=
  let d := pyStrip (it.title ++ " " ++ it.description ++ " " ++ it.category ++
    " " ++ it.location)
  if d = "" then "item" else d

/-- The zero-vector sentinel `[0.0] * n`. -/
def zeroVec (n : Nat) : List ℝ := List.replicate n 0

/-- Embedding of the `embed_item` closure (main.py lines 342-348): the item's
display text is embedded; on any exception the result is the zero vector of
the query's dimension. -/
noncomputable def workerResult (cfg : Bool) (backend : String → Option (List ℝ))
    (qlen : Nat) (it : Item) : List ℝ :=
  match gemini_embed_text cfg backend (buildDesc it) with
  | .ok e => e
  | .error _ => zeroVec qlen

/-- The `results_map` built by the fanout (main.py lines 322-350): an entry
exists exactly for the indices whose item had a falsy `embedding` field
(those are the only tasks created), and it always holds the worker's result. -/
noncomputable def resultsMap (cfg : Bool) (backend : String → Option (List ℝ))
    (qlen : Nat) (items : List Item) (idx : Nat) : Option (List ℝ) :=
  match items[idx]? with
  | some it => if it.embedding = [] then some (workerResult cfg backend qlen it) else none
  | none => none

/-- The vector an item is scored with (main.py lines 354-369): a truthy
pre-supplied embedding of matching dimension is normalized in place; on a
dimension mismatch the code falls back to `results_map.get(idx, zeros)`;
an item without a pre-supplied embedding reads `results_map` the same way. -/
noncomputable def itemVector (cfg : Bool) (backend : String → Option (List ℝ))
    (qlen : Nat) (items : List Item) (idx : Nat) (it : Item) : List ℝ :=
  if it.embedding ≠ [] then
    if it.embedding.length ≠ qlen then
      (resultsMap cfg backend qlen items idx).getD (zeroVec qlen)
    else normalize_vector it.embedding
  else (resultsMap cfg backend qlen items idx).getD (zeroVec qlen)

/-- The similarity written into a result (main.py lines 371-375): 0.0 on a
final shape mismatch, otherwise `np.dot(q_arr, emb)`. -/
noncomputable def simOf (q emb : List ℝ) : ℝ :=
  if emb.length ≠ q.length then 0 else dot q emb

/-- One entry of the `/search` response: the enumerate position of the item
in the request, the computed similarity, and the item's display fields. -/
structure ScoredItem where
  origIdx : Nat
  similarity : ℝ
  item : Item

/-- Builds the result record for one item (main.py lines 354-387). -/
noncomputable def scoreOne (cfg : Bool) (backend : String → Option (List ℝ))
    (q : List ℝ) (items : List Item) (idx : Nat) (it : Item) : ScoredItem :=
  { origIdx := idx
    similarity := simOf q (itemVector cfg backend q.length items idx it)
    item := it }

/-- The result list before sorting, in enumerate order (main.py lines
353-387). -/
noncomputable def scoredList (cfg : Bool) (backend : String → Option (List ℝ))
    (q : List ℝ) (items : List Item) : List ScoredItem :=
  items.enum.map fun p => scoreOne cfg backend q items p.1 p.2

/-- The comparison used by `results.sort(key=..., reverse=True)`: descending
by similarity. -/
noncomputable def simLE (a b : ScoredItem) : Bool :=
  decide (b.similarity ≤ a.similarity)

/-- Python's `list.sort` is a stable sort; with `reverse=True` it is a stable
sort under the descending comparison `simLE`.  Stable sorts agree on every
input, so `List.mergeSort` with `simLE` is an exact model of main.py line
390. -/
noncomputable def sortResults (rs : List ScoredItem) : List ScoredItem :=
  rs.mergeSort simLE

/-- Failure modes of `search_endpoint`: 400 for a blank query, and a fatal
query-embedding failure (503 when not configured, 500 otherwise). -/
inductive SearchError where
  | emptyQuery
  | queryEmbedFailed (e : GeminiError)
deriving DecidableEq

/-- HTTP status code of each search failure (main.py lines 315, 152, 396). -/
def statusOf : SearchError → Nat
  | .emptyQuery => 400
  | .queryEmbedFailed .notConfigured => 503
  | .queryEmbedFailed .backendFailure => 500

/-- Embedding of `search_endpoint` (main.py lines 302-396): strip the query,
400 if blank, embed the query (fatal on failure), score every item, and
stable-sort descending by similarity. -/
noncomputable def search_endpoint (cfg : Bool) (backend : String → Option (List ℝ))
    (query : String) (items : List Item) : Except SearchError (List ScoredItem) :=
  let q := pyStrip query
  if q = "" then .error .emptyQuery
  else
    match gemini_embed_text cfg backend q with
    | .error e => .error (.queryEmbedFailed e)
    | .ok qe => .ok (sortResults (scoredList cfg backend qe items))

/-! ## Bounded fanout (semaphore-gated concurrency)

Both fanouts gate every backend call with `async with sem` around an
`asyncio.Semaphore(K)`: `embeddings_batch_endpoint` uses `K = 8` (main.py
line 288) and `search_endpoint`'s item fanout uses `K = 6` (main.py line
341).  The worker lifecycle is embedded as a transition system: a worker
acquires a permit (possible only while fewer than `K` are held) before its
backend call starts, and releases it when the call finishes.  `inflight`
counts backend calls currently in flight. -/

/-- The semaphore capacity of the item fanout in `search_endpoint`
(main.py line 341: `asyncio.Semaphore(6)`). -/
def SEARCH_ITEM_CONCURRENCY : Nat := 6

/-- The semaphore capacity of `embeddings_batch_endpoint`
(main.py line 288: `asyncio.Semaphore(8)`). -/
def BATCH_CONCURRENCY : Nat := 8

/-- Scheduler state of one fanout: tasks not yet started, backend calls in
flight (holding a semaphore permit), and finished tasks. -/
structure FanoutState where
  pending : Nat
  inflight : Nat
  done : Nat
deriving DecidableEq

/-- One scheduler step of the semaphore-gated fanout with capacity `K`:
a pending worker may enter `async with sem` only while fewer than `K`
permits are held, and an in-flight backend call may finish at any time. -/
inductive FanoutStep (K : Nat) : FanoutState → FanoutState → Prop where
  | acquire (s : FanoutState) (hp : 0 < s.pending) (hk : s.inflight < K) :
      FanoutStep K s ⟨s.pending - 1, s.inflight + 1, s.done⟩
  | release (s : FanoutState) (hi : 0 < s.inflight) :
      FanoutStep K s ⟨s.pending, s.inflight - 1, s.done + 1⟩

/-- States reachable by interleaving fanout steps. -/
inductive FanoutReachable (K : Nat) : FanoutState → FanoutState → Prop where
  | refl (s : FanoutState) : FanoutReachable K s s
  | tail {s t u : FanoutState} :
      FanoutReachable K s t → FanoutStep K t u → FanoutReachable K s u

/-- Initial state of a fanout over `n` tasks: nothing started. -/
def initFanout (n : Nat) : FanoutState := ⟨n, 0, 0⟩

/-! ## Concrete request data used by witnesses and counterexamples -/

/-- Test backend: embeds the query `"q"` as the unit vector `[1,0,0]` and
fails (raises) on every other text. -/
def qOnlyBackend : String → Option (List ℝ) :=
  fun t => if t = "q" then some [1, 0, 0] else none

/-- Test backend: embeds every text as the unit vector `[1,0,0]`. -/
def unitBackend : String → Option (List ℝ) := fun _ => some [1, 0, 0]

/-- Test item with no pre-supplied embedding (it needs embedding). -/
def walletItem : Item :=
  { id := "id1", title := "wallet", description := "", category := "",
    location := "", embedding := [] }

/-- Test item carrying a pre-supplied embedding of dimension 2, mismatching
the query dimension 3 of the test backends. -/
def mismatchItem : Item :=
  { id := "id2", title := "wallet", description := "", category := "",
    location := "", embedding := [1, 1] }

theorem fanoutStep_inflight_le {K : Nat} {s t : FanoutState}
    (hs : s.inflight ≤ K) (h : FanoutStep K s t) : t.inflight ≤ K := by
  cases h with
  | acquire hp hk => exact hk
  | release hi => exact le_trans (Nat.sub_le _ _) hs

theorem fanoutReachable_inflight_le {K : Nat} {s t : FanoutState}
    (hs : s.inflight ≤ K) (h : FanoutReachable K s t) : t.inflight ≤ K := by
  induction h with
  | refl => exact hs
  | tail _ hstep ih => exact fanoutStep_inflight_le ih hstep

/-! ## Lemmas about the vector primitives -/


theorem sumSq_nonneg (v : List ℝ) : 0 ≤ sumSq v := by
  induction v with
  | nil => simp [sumSq]
  | cons x xs ih =>
    simp only [sumSq, List.map_cons, List.sum_cons] at *
    exact add_nonneg (mul_self_nonneg x) ih

theorem norm2_nonneg (v : List ℝ) : 0 ≤ norm2 v := Real.sqrt_nonneg _

theorem norm2_eq_zero_iff (v : List ℝ) : norm2 v = 0 ↔ sumSq v = 0 := by
  unfold norm2
  constructor
  · intro h
    have := Real.sqrt_eq_zero (sumSq_nonneg v) |>.mp h
    exact this
  · intro h; rw [h, Real.sqrt_zero]

theorem norm2_pos_iff (v : List ℝ) : 0 < norm2 v ↔ 0 < sumSq v := by
  unfold norm2
  exact Real.sqrt_pos

theorem sumSq_eq_zero_iff (v : List ℝ) : sumSq v = 0 ↔ ∀ x ∈ v, x = 0 := by
  induction v with
  | nil => simp [sumSq]
  | cons x xs ih =>
    simp only [sumSq, List.map_cons, List.sum_cons] at *
    constructor
    · intro h
      have hx : 0 ≤ x * x := mul_self_nonneg x
      have hxs : 0 ≤ (xs.map fun y => y * y).sum := sumSq_nonneg xs
      have h1 : x * x = 0 := by linarith
      have h2 : (xs.map fun y => y * y).sum = 0 := by linarith
      have hx0 : x = 0 := by
        by_contra hne
        exact hne (by nlinarith)
      intro y hy
      rcases List.mem_cons.mp hy with rfl | hy'
      · exact hx0
      · exact ih.mp h2 y hy'
    · intro h
      have hx0 : x = 0 := h x (List.mem_cons_self x xs)
      have : (xs.map fun y => y * y).sum = 0 :=
        ih.mpr fun y hy => h y (List.mem_cons_of_mem x hy)
      simp [hx0, this]

theorem sumSq_map_div (v : List ℝ) (c : ℝ) :
    sumSq (v.map fun x => x / c) = sumSq v / (c * c) := by
  induction v with
  | nil => simp [sumSq]
  | cons x xs ih =>
    simp only [sumSq, List.map_cons, List.map_map, List.sum_cons] at *
    rw [ih]
    by_cases hc : c = 0
    · simp [hc]
    · field_simp

theorem norm2_normalize (v : List ℝ) (h : norm2 v ≠ 0) :
    norm2 (normalize_vector v) = 1 := by
  have hpos : 0 < norm2 v := lt_of_le_of_ne (norm2_nonneg v) (Ne.symm h)
  have hsq : norm2 v * norm2 v = sumSq v := Real.mul_self_sqrt (sumSq_nonneg v)
  have hs : sumSq v ≠ 0 := fun h0 => h ((norm2_eq_zero_iff v).mpr h0)
  unfold normalize_vector
  rw [if_pos hpos]
  have h1 : sumSq (v.map fun x => x / norm2 v) = 1 := by
    rw [sumSq_map_div, hsq, div_self hs]
  show Real.sqrt (sumSq (v.map fun x => x / norm2 v)) = 1
  rw [h1, Real.sqrt_one]

theorem normalize_vector_zero (v : List ℝ) (h : norm2 v = 0) :
    normalize_vector v = v := by
  unfold normalize_vector
  rw [if_neg]
  rw [h]
  exact lt_irrefl 0

theorem dot_replicate_zero (q : List ℝ) (n : Nat) :
    dot q (List.replicate n 0) = 0 := by
  induction q generalizing n with
  | nil => simp [dot]
  | cons x xs ih =>
    cases n with
    | zero => simp [dot]
    | succ m =>
      simp only [List.replicate_succ, dot, List.zipWith_cons_cons, List.sum_cons]
      rw [mul_zero, zero_add]
      exact ih m

theorem cfg_true_of_gemini_ok {cfg : Bool} {backend : String → Option (List ℝ)}
    {t : String} {v : List ℝ} (h : gemini_embed_text cfg backend t = .ok v) :
    cfg = true := by
  cases cfg
  · unfold gemini_embed_text at h
    simp at h
  · rfl

theorem gemini_embed_text_ok {cfg : Bool} {backend : String → Option (List ℝ)}
    {t : String} {v : List ℝ} (h : gemini_embed_text cfg backend t = .ok v) :
    cfg = true ∧ ∃ raw, backend t = some raw ∧ v = normalize_vector raw := by
  have hc := cfg_true_of_gemini_ok h
  subst hc
  unfold gemini_embed_text at h
  rw [if_neg (by simp : ¬(true = false))] at h
  cases hb : backend t with
  | none => rw [hb] at h; simp at h
  | some raw =>
    rw [hb] at h
    simp only [Except.ok.injEq] at h
    exact ⟨rfl, raw, rfl, h.symm⟩

theorem normalize_unit_axis : normalize_vector [(1 : ℝ), 0, 0] = [1, 0, 0] := by
  have h1 : norm2 [(1 : ℝ), 0, 0] = 1 := by
    unfold norm2
    simp only [sumSq, List.map_cons, List.map_nil, List.sum_cons, List.sum_nil]
    rw [show (1 * 1 + (0 * 0 + (0 * 0 + 0)) : ℝ) = 1 by norm_num, Real.sqrt_one]
  unfold normalize_vector
  rw [h1, if_pos (by norm_num : (1 : ℝ) > 0)]
  norm_num

theorem gemini_unitBackend (t : String) :
    gemini_embed_text true unitBackend t = .ok [(1 : ℝ), 0, 0] := by
  show Except.ok (normalize_vector [(1 : ℝ), 0, 0]) = _
  rw [normalize_unit_axis]

theorem gemini_qOnlyBackend_q :
    gemini_embed_text true qOnlyBackend (pyStrip "q") = .ok [(1 : ℝ), 0, 0] := by
  show Except.ok (normalize_vector [(1 : ℝ), 0, 0]) = _
  rw [normalize_unit_axis]

/-! ## Claim theorems -/

/-- C4: for every vector `v`, `_normalize_vector v` returns `v` unchanged
when its Euclidean norm is 0, and otherwise returns `v` divided element-wise
by its norm, preserving length and element order, so the result has
Euclidean norm 1. -/
theorem normalize_vector_spec (v : List ℝ) :
    (norm2 v = 0 → normalize_vector v = v) ∧
    (norm2 v ≠ 0 →
      (normalize_vector v).length = v.length ∧
      (∀ i : Nat, (normalize_vector v)[i]? = v[i]?.map fun x => x / norm2 v) ∧
      norm2 (normalize_vector v) = 1) := by
  constructor
  · intro h0
    unfold normalize_vector
    rw [if_neg]
    rw [h0]
    exact lt_irrefl 0
  · intro hne
    have hpos : 0 < norm2 v := lt_of_le_of_ne (norm2_nonneg v) (Ne.symm hne)
    refine ⟨?_, ?_, norm2_normalize v hne⟩
    · unfold normalize_vector
      rw [if_pos hpos, List.length_map]
    · intro i
      unfold normalize_vector
      rw [if_pos hpos, List.getElem?_map]

/-- C4 witness: at `v = [3, 4]` the norm is `5 ≠ 0`, the normalized vector
keeps length 2, its entries are the originals divided by the norm, and its
norm is 1. -/
theorem normalize_vector_spec_witness :
    norm2 [(3 : ℝ), 4] ≠ 0 ∧
    (normalize_vector [(3 : ℝ), 4]).length = 2 ∧
    norm2 (normalize_vector [(3 : ℝ), 4]) = 1 := by
  have hne : norm2 [(3 : ℝ), 4] ≠ 0 := by
    intro h
    rw [norm2_eq_zero_iff] at h
    simp only [sumSq, List.map_cons, List.map_nil, List.sum_cons, List.sum_nil] at h
    norm_num at h
  have h := (normalize_vector_spec [(3 : ℝ), 4]).2 hne
  exact ⟨hne, h.1, h.2.2⟩

/-- C1 counterexample: at `a = [1,2,3]`, `b = [1,2]` — non-empty, nonzero
norms, different lengths — `_cosine_similarity` raises (modelled as `none`)
instead of returning `0.0` (which would be `some 0`). -/
theorem cosine_similarity_mismatch_cex :
    cosine_similarity [(1 : ℝ), 2, 3] [(1 : ℝ), 2] = none ∧
    cosine_similarity [(1 : ℝ), 2, 3] [(1 : ℝ), 2] ≠ some 0 := by
  have h : cosine_similarity [(1 : ℝ), 2, 3] [(1 : ℝ), 2] = none := by
    unfold cosine_similarity
    rw [if_neg, if_neg, if_neg]
    · simp
    · rw [norm2_eq_zero_iff, norm2_eq_zero_iff]
      simp only [sumSq, List.map_cons, List.map_nil, List.sum_cons, List.sum_nil]
      push_neg
      norm_num
    · simp
  exact ⟨h, by rw [h]; simp⟩

/-- C1 amended: for every pair of non-empty vectors of different lengths,
each with nonzero norm, `_cosine_similarity` is past both `0.0` guards and
raises numpy's shape-mismatch error at `np.dot` (modelled as `none`) — it
does not return `0.0`. -/
theorem cosine_similarity_mismatch_raises (a b : List ℝ)
    (ha : a ≠ []) (hb : b ≠ []) (hna : norm2 a ≠ 0) (hnb : norm2 b ≠ 0)
    (hlen : a.length ≠ b.length) : cosine_similarity a b = none := by
  unfold cosine_similarity
  rw [if_neg, if_neg, if_neg]
  · exact hlen
  · push_neg
    exact ⟨hna, hnb⟩
  · push_neg
    exact ⟨fun h => ha (List.length_eq_zero.mp h), fun h => hb (List.length_eq_zero.mp h)⟩

/-- C1 amended witness: the amended theorem applied at `[1,2,3]`, `[1,2]`. -/
theorem cosine_similarity_mismatch_raises_witness :
    [(1 : ℝ), 2, 3] ≠ [] ∧ norm2 [(1 : ℝ), 2, 3] ≠ 0 ∧
    cosine_similarity [(1 : ℝ), 2, 3] [(1 : ℝ), 2] = none := by
  have hna : norm2 [(1 : ℝ), 2, 3] ≠ 0 := by
    intro h
    rw [norm2_eq_zero_iff] at h
    simp only [sumSq, List.map_cons, List.map_nil, List.sum_cons, List.sum_nil] at h
    norm_num at h
  have hnb : norm2 [(1 : ℝ), 2] ≠ 0 := by
    intro h
    rw [norm2_eq_zero_iff] at h
    simp only [sumSq, List.map_cons, List.map_nil, List.sum_cons, List.sum_nil] at h
    norm_num at h
  refine ⟨by simp, hna, ?_⟩
  exact cosine_similarity_mismatch_raises _ _ (by simp) (by simp) hna hnb (by simp)

/-- C8: `_enhance_caption` strips surrounding whitespace; if the stripped
string is empty it returns the empty string; otherwise it uppercases the
first character and appends a period exactly when the last character is not
one of `.`, `!`, `?`.  The spec's concrete examples are included. -/
theorem enhance_caption_spec :
    (∀ s : String, stripChars s.toList = [] → enhance_caption s = "") ∧
    (∀ (s : String) (c : Char) (rest : List Char),
      stripChars s.toList = c :: rest →
      enhance_caption s =
        (if lastCharD (Char.toUpper c :: rest) ∈ ['.', '!', '?']
         then String.mk (Char.toUpper c :: rest)
         else String.mk (Char.toUpper c :: rest ++ ['.']))) ∧
    enhance_caption " a red bag" = "A red bag." ∧
    enhance_caption "already done!" = "Already done!" ∧
    enhance_caption "" = "" := by
  refine ⟨?_, ?_, by decide, by decide, rfl⟩
  · intro s hs
    unfold enhance_caption
    by_cases h : s = ""
    · rw [if_pos h]
    · rw [if_neg h, hs]
  · intro s c rest hs
    unfold enhance_caption
    have h : s ≠ "" := by
      intro h0
      rw [h0] at hs
      simp [stripChars] at hs
    rw [if_neg h, hs]

/-- C8 witness: the general clauses applied at the concrete string
`" a red bag"`, whose stripped form starts with `'a'`. -/
theorem enhance_caption_spec_witness :
    stripChars " a red bag".toList = 'a' :: " red bag".toList ∧
    enhance_caption " a red bag" =
      (if lastCharD (Char.toUpper 'a' :: " red bag".toList) ∈ ['.', '!', '?']
       then String.mk (Char.toUpper 'a' :: " red bag".toList)
       else String.mk (Char.toUpper 'a' :: " red bag".toList ++ ['.'])) := by
  have hs : stripChars " a red bag".toList = 'a' :: " red bag".toList := by decide
  exact ⟨hs, enhance_caption_spec.2.1 " a red bag" 'a' " red bag".toList hs⟩

/-- C9: with the semaphore-gated fanout embedded as a transition system, the
number of backend calls simultaneously in flight never exceeds the fixed
ceiling in any reachable state: 6 (`asyncio.Semaphore(6)`) for item
embedding inside a search request and 8 (`asyncio.Semaphore(8)`) for a
raw-text batch embedding request. -/
theorem fanout_concurrency_ceiling :
    (∀ (n : Nat) (s : FanoutState),
      FanoutReachable SEARCH_ITEM_CONCURRENCY (initFanout n) s →
      s.inflight ≤ SEARCH_ITEM_CONCURRENCY) ∧
    (∀ (n : Nat) (s : FanoutState),
      FanoutReachable BATCH_CONCURRENCY (initFanout n) s →
      s.inflight ≤ BATCH_CONCURRENCY) := by
  constructor <;> intro n s h <;>
    exact fanoutReachable_inflight_le (Nat.zero_le _) h

/-- C9 witness: from a fanout of 50 tasks, the state after one acquire step
is reachable and its in-flight count respects both ceilings. -/
theorem fanout_concurrency_ceiling_witness :
    FanoutReachable SEARCH_ITEM_CONCURRENCY (initFanout 50)
      ⟨49, 1, 0⟩ ∧
    (FanoutState.mk 49 1 0).inflight ≤ SEARCH_ITEM_CONCURRENCY ∧
    FanoutReachable BATCH_CONCURRENCY (initFanout 50) ⟨49, 1, 0⟩ ∧
    (FanoutState.mk 49 1 0).inflight ≤ BATCH_CONCURRENCY := by
  have h6 : FanoutReachable SEARCH_ITEM_CONCURRENCY (initFanout 50) ⟨49, 1, 0⟩ :=
    .tail (.refl _) (.acquire (initFanout 50) (by decide) (by decide))
  have h8 : FanoutReachable BATCH_CONCURRENCY (initFanout 50) ⟨49, 1, 0⟩ :=
    .tail (.refl _) (.acquire (initFanout 50) (by decide) (by decide))
  exact ⟨h6, fanout_concurrency_ceiling.1 50 _ h6, h8,
    fanout_concurrency_ceiling.2 50 _ h8⟩

/-- C6: for every non-empty list of input texts, the batch embedding
endpoint succeeds and returns a list of the same length whose i-th entry is
the worker result for the i-th input text; when embedding an individual text
fails, its entry is the length-1 zero vector `[0.0]`. -/
theorem embeddings_batch_spec (cfg : Bool) (backend : String → Option (List ℝ))
    (texts : List String) (hne : texts ≠ []) :
    ∃ rs, embeddings_batch_endpoint cfg backend texts = some rs ∧
      rs.length = texts.length ∧
      (∀ i : Nat, rs[i]? = (texts[i]?).map (batchWorker cfg backend)) ∧
      (∀ (i : Nat) (t : String) (e : GeminiError), texts[i]? = some t →
        gemini_embed_text cfg backend t = .error e → rs[i]? = some [0]) := by
  refine ⟨texts.map (batchWorker cfg backend), ?_, List.length_map _ _, ?_, ?_⟩
  · unfold embeddings_batch_endpoint
    rw [if_neg hne]
  · intro i
    rw [List.getElem?_map]
  · intro i t e hti hge
    rw [List.getElem?_map, hti]
    simp [batchWorker, hge]

/-- C6 witness: a one-text batch whose only backend call fails still
succeeds, returning exactly one entry, namely `[0.0]`. -/
theorem embeddings_batch_spec_witness :
    (["a"] : List String) ≠ [] ∧
    ∃ rs, embeddings_batch_endpoint true (fun _ => none) ["a"] = some rs ∧
      rs.length = 1 ∧ rs[0]? = some [0] := by
  obtain ⟨rs, h1, h2, h3, h4⟩ :=
    embeddings_batch_spec true (fun _ => none) ["a"] (by simp)
  exact ⟨by simp, rs, h1, h2, h4 0 "a" .backendFailure rfl rfl⟩

/-- C7: if embedding the query itself fails, the whole search request fails
with that error, and the reported status distinguishes the configuration
problem (503, `GEMINI_API_KEY not configured`) from a transient backend
problem (500). -/
theorem search_query_failure_fatal (cfg : Bool) (backend : String → Option (List ℝ))
    (query : String) (items : List Item) (e : GeminiError)
    (hq : pyStrip query ≠ "")
    (he : gemini_embed_text cfg backend (pyStrip query) = .error e) :
    search_endpoint cfg backend query items = .error (.queryEmbedFailed e) ∧
    statusOf (.queryEmbedFailed .notConfigured) = 503 ∧
    statusOf (.queryEmbedFailed .backendFailure) = 500 ∧
    statusOf (SearchError.queryEmbedFailed .notConfigured) ≠
      statusOf (.queryEmbedFailed .backendFailure) := by
  refine ⟨?_, rfl, rfl, by decide⟩
  simp only [search_endpoint]
  rw [if_neg hq, he]

/-- C7 witness: with `GEMINI_API_KEY` missing, the query embedding fails
with the configuration error and the whole request reports status 503. -/
theorem search_query_failure_fatal_witness :
    pyStrip "q" ≠ "" ∧
    gemini_embed_text false qOnlyBackend (pyStrip "q") = .error .notConfigured ∧
    search_endpoint false qOnlyBackend "q" [] =
      .error (.queryEmbedFailed .notConfigured) ∧
    statusOf (.queryEmbedFailed .notConfigured) = 503 := by
  have hq : pyStrip "q" ≠ "" := by decide
  have he : gemini_embed_text false qOnlyBackend (pyStrip "q") =
      .error .notConfigured := rfl
  have h := search_query_failure_fatal false qOnlyBackend "q" [] .notConfigured hq he
  exact ⟨hq, he, h.1, h.2.1⟩

/-- C10: every embedding produced by `_gemini_embed_text` is the normalized
backend vector: it has Euclidean norm 1 unless the backend returned an
all-zero vector, which is passed through unchanged.  The single-embedding
endpoint, the batch workers, and the search scoring all obtain their vectors
from `_gemini_embed_text`. -/
theorem gemini_embedding_normalized (cfg : Bool)
    (backend : String → Option (List ℝ)) :
    (∀ (t : String) (raw emb : List ℝ), backend t = some raw →
      gemini_embed_text cfg backend t = .ok emb →
      emb = normalize_vector raw ∧
      ((¬ ∀ x ∈ raw, x = 0) → norm2 emb = 1) ∧
      ((∀ x ∈ raw, x = 0) → emb = raw)) ∧
    (∀ t : String, t ≠ "" →
      embedding_endpoint cfg backend t =
        match gemini_embed_text cfg backend t with
        | .ok v => .ok v
        | .error e => .error (.geminiFailed e)) ∧
    (∀ (t : String) (v : List ℝ), gemini_embed_text cfg backend t = .ok v →
      batchWorker cfg backend t = v) ∧
    (∀ (query : String) (items : List Item) (qe : List ℝ),
      pyStrip query ≠ "" →
      gemini_embed_text cfg backend (pyStrip query) = .ok qe →
      search_endpoint cfg backend query items =
        .ok (sortResults (scoredList cfg backend qe items))) := by
  refine ⟨?_, ?_, ?_, ?_⟩
  · intro t raw emb hb hok
    obtain ⟨-, raw2, hb2, hv⟩ := gemini_embed_text_ok hok
    have hraw : raw2 = raw := by
      rw [hb] at hb2
      exact (Option.some.inj hb2).symm
    subst hraw
    subst hv
    refine ⟨rfl, ?_, ?_⟩
    · intro hnz
      apply norm2_normalize
      intro h0
      exact hnz ((sumSq_eq_zero_iff raw2).mp ((norm2_eq_zero_iff raw2).mp h0))
    · intro hz
      exact normalize_vector_zero raw2
        ((norm2_eq_zero_iff raw2).mpr ((sumSq_eq_zero_iff raw2).mpr hz))
  · intro t ht
    unfold embedding_endpoint
    rw [if_neg ht]
  · intro t v hok
    unfold batchWorker
    rw [hok]
  · intro query items qe hq hok
    simp only [search_endpoint]
    rw [if_neg hq, hok]

/-- C10 witness: a backend returning the non-zero raw vector `[3,4]` yields
an embedding of Euclidean norm 1 from `_gemini_embed_text`. -/
theorem gemini_embedding_normalized_witness :
    (fun _ : String => some [(3 : ℝ), 4]) "a" = some [(3 : ℝ), 4] ∧
    gemini_embed_text true (fun _ => some [(3 : ℝ), 4]) "a" =
      .ok (normalize_vector [3, 4]) ∧
    ¬(∀ x ∈ [(3 : ℝ), 4], x = 0) ∧
    norm2 (normalize_vector [(3 : ℝ), 4]) = 1 := by
  have hb : (fun _ : String => some [(3 : ℝ), 4]) "a" = some [(3 : ℝ), 4] := rfl
  have hok : gemini_embed_text true (fun _ => some [(3 : ℝ), 4]) "a" =
      .ok (normalize_vector [3, 4]) := rfl
  have hnz : ¬(∀ x ∈ [(3 : ℝ), 4], x = 0) := by
    intro h
    have h3 := h 3 (by simp)
    norm_num at h3
  have h := (gemini_embedding_normalized true (fun _ => some [(3 : ℝ), 4])).1
    "a" [3, 4] (normalize_vector [3, 4]) hb hok
  exact ⟨hb, hok, hnz, h.2.1 hnz⟩

/-- C5: a failure while embedding one item does not abort the search
request; the failed item's vector is the zero-vector sentinel of the query's
dimension, so its similarity is 0.0, and every other item's score is
computed exactly as it would be had the failing backend call succeeded
(provided its display text differs from the failed one, since the backend is
keyed by text). -/
theorem search_item_failure_isolated
    (cfg : Bool) (backend : String → Option (List ℝ)) (query : String)
    (items : List Item) (qe : List ℝ) (idx : Nat) (it : Item)
    (hq : pyStrip query ≠ "")
    (hqe : gemini_embed_text cfg backend (pyStrip query) = .ok qe)
    (hit : items[idx]? = some it)
    (hneeds : it.embedding = [])
    (hfail : backend (buildDesc it) = none) :
    search_endpoint cfg backend query items =
      .ok (sortResults (scoredList cfg backend qe items)) ∧
    itemVector cfg backend qe.length items idx it = zeroVec qe.length ∧
    scoreOne cfg backend qe items idx it =
      { origIdx := idx, similarity := 0, item := it } ∧
    (∀ (j : Nat) (jt : Item) (backend2 : String → Option (List ℝ)),
      items[j]? = some jt → buildDesc jt ≠ buildDesc it →
      (∀ t, t ≠ buildDesc it → backend2 t = backend t) →
      scoreOne cfg backend2 qe items j jt = scoreOne cfg backend qe items j jt) := by
  have hc := cfg_true_of_gemini_ok hqe
  subst hc
  have hg : gemini_embed_text true backend (buildDesc it) = .error .backendFailure := by
    unfold gemini_embed_text
    rw [if_neg (by simp : ¬(true = false)), hfail]
  have hw : workerResult true backend qe.length it = zeroVec qe.length := by
    unfold workerResult
    rw [hg]
  have hrm : resultsMap true backend qe.length items idx = some (zeroVec qe.length) := by
    unfold resultsMap
    simp only [hit]
    rw [if_pos hneeds, hw]
  have hiv : itemVector true backend qe.length items idx it = zeroVec qe.length := by
    unfold itemVector
    rw [if_neg (by simp [hneeds]), hrm]
    rfl
  refine ⟨?_, hiv, ?_, ?_⟩
  · simp only [search_endpoint]
    rw [if_neg hq, hqe]
  · unfold scoreOne
    rw [hiv]
    have hs : simOf qe (zeroVec qe.length) = 0 := by
      unfold simOf
      rw [if_neg (by simp [zeroVec])]
      exact dot_replicate_zero qe qe.length
    rw [hs]
  · intro j jt backend2 hjt hne hagree
    have hgm : gemini_embed_text true backend2 (buildDesc jt) =
        gemini_embed_text true backend (buildDesc jt) := by
      unfold gemini_embed_text
      rw [hagree _ hne]
    have hwr : workerResult true backend2 qe.length jt =
        workerResult true backend qe.length jt := by
      unfold workerResult
      rw [hgm]
    have hrm2 : resultsMap true backend2 qe.length items j =
        resultsMap true backend qe.length items j := by
      unfold resultsMap
      simp only [hjt]
      by_cases hj : jt.embedding = []
      · rw [if_pos hj, if_pos hj, hwr]
      · rw [if_neg hj, if_neg hj]
    have hiv2 : itemVector true backend2 qe.length items j jt =
        itemVector true backend qe.length items j jt := by
      unfold itemVector
      rw [hrm2]
    unfold scoreOne
    rw [hiv2]

/-- C5 witness: query `"q"` embeds as `[1,0,0]`; the only item's backend
call fails, yet the request succeeds and the item scores exactly 0. -/
theorem search_item_failure_isolated_witness :
    qOnlyBackend (buildDesc walletItem) = none ∧
    search_endpoint true qOnlyBackend "q" [walletItem] =
      .ok (sortResults (scoredList true qOnlyBackend [1, 0, 0] [walletItem])) ∧
    scoreOne true qOnlyBackend [(1 : ℝ), 0, 0] [walletItem] 0 walletItem =
      { origIdx := 0, similarity := 0, item := walletItem } := by
  have hq : pyStrip "q" ≠ "" := by decide
  have hfail : qOnlyBackend (buildDesc walletItem) = none := rfl
  have h := search_item_failure_isolated true qOnlyBackend "q" [walletItem]
    [1, 0, 0] 0 walletItem hq gemini_qOnlyBackend_q rfl rfl hfail
  exact ⟨hfail, h.1, h.2.2.1⟩

/-- C2 (code bug, demonstrated): an item carrying a pre-supplied embedding
of mismatched dimension is not re-embedded from its text fields — no embed
task is created for it, so `results_map.get(idx, zeros)` always yields the
zero sentinel and the item scores 0.0, even though the backend would embed
its display text as `[1,0,0]`, which scores 1 against the query. -/
theorem search_mismatched_embedding_not_reembedded :
    search_endpoint true unitBackend "q" [mismatchItem] =
      .ok [{ origIdx := 0, similarity := 0, item := mismatchItem }] ∧
    gemini_embed_text true unitBackend (buildDesc mismatchItem) =
      .ok [(1 : ℝ), 0, 0] ∧
    simOf [(1 : ℝ), 0, 0] [(1 : ℝ), 0, 0] = 1 := by
  have hrm : resultsMap true unitBackend ([(1 : ℝ), 0, 0]).length
      [mismatchItem] 0 = none := by
    unfold resultsMap
    simp only [List.getElem?_cons_zero]
    rw [if_neg (by simp [mismatchItem] : ¬(mismatchItem.embedding = []))]
  have hiv : itemVector true unitBackend ([(1 : ℝ), 0, 0]).length
      [mismatchItem] 0 mismatchItem = zeroVec 3 := by
    unfold itemVector
    rw [if_pos (by simp [mismatchItem] : mismatchItem.embedding ≠ []),
      if_pos (by simp [mismatchItem] :
        mismatchItem.embedding.length ≠ ([(1 : ℝ), 0, 0]).length), hrm]
    rfl
  have hso : scoreOne true unitBackend [(1 : ℝ), 0, 0] [mismatchItem] 0
      mismatchItem = { origIdx := 0, similarity := 0, item := mismatchItem } := by
    unfold scoreOne
    rw [hiv]
    have hs : simOf [(1 : ℝ), 0, 0] (zeroVec 3) = 0 := by
      unfold simOf
      rw [if_neg (by simp [zeroVec])]
      exact dot_replicate_zero _ _
    rw [hs]
  refine ⟨?_, gemini_unitBackend _, ?_⟩
  · simp only [search_endpoint]
    rw [if_neg (by decide : ¬(pyStrip "q" = "")), gemini_unitBackend]
    show Except.ok (sortResults (scoredList true unitBackend [(1 : ℝ), 0, 0]
      [mismatchItem])) = _
    have hsl : scoredList true unitBackend [(1 : ℝ), 0, 0] [mismatchItem] =
        [scoreOne true unitBackend [(1 : ℝ), 0, 0] [mismatchItem] 0 mismatchItem] := rfl
    rw [hsl, hso]
    simp [sortResults]
  · simp [simOf, dot]

/-! ## Lemmas for the sort/stability claim -/

theorem pair_sublist_of_getElem {α : Type _} :
    ∀ {l : List α} {i j : Nat} {a b : α},
    i < j → l[i]? = some a → l[j]? = some b → List.Sublist [a, b] l := by
  intro l
  induction l with
  | nil => intro i j a b hij ha hb; simp at ha
  | cons x t ih =>
    intro i j a b hij ha hb
    cases i with
    | zero =>
      cases j with
      | zero => omega
      | succ j2 =>
        simp only [List.getElem?_cons_zero] at ha
        simp only [List.getElem?_cons_succ] at hb
        have hxa : x = a := Option.some.inj ha
        subst hxa
        have hbmem : b ∈ t := by
          obtain ⟨hj2, hcj⟩ := List.getElem?_eq_some.mp hb
          exact hcj ▸ List.getElem_mem hj2
        exact List.Sublist.cons₂ _ (List.singleton_sublist.mpr hbmem)
    | succ i2 =>
      cases j with
      | zero => omega
      | succ j2 =>
        simp only [List.getElem?_cons_succ] at ha hb
        exact List.Sublist.cons _ (ih (by omega) ha hb)

theorem exists_getElem_of_pair_sublist {α : Type _} {a b : α} :
    ∀ {l : List α}, List.Sublist [a, b] l →
    ∃ i j : Nat, i < j ∧ l[i]? = some a ∧ l[j]? = some b := by
  intro l
  induction l with
  | nil => intro h; simp at h
  | cons x t ih =>
    intro h
    cases h with
    | cons _ h2 =>
      obtain ⟨i, j, hij, ha, hb⟩ := ih h2
      exact ⟨i + 1, j + 1, by omega, by simpa using ha, by simpa using hb⟩
    | cons₂ _ h2 =>
      have hbmem : b ∈ t := List.singleton_sublist.mp h2
      obtain ⟨j2, hj2, hbj⟩ := List.getElem_of_mem hbmem
      refine ⟨0, j2 + 1, Nat.succ_pos _, by simp, ?_⟩
      simp only [List.getElem?_cons_succ]
      rw [List.getElem?_eq_getElem hj2, hbj]

theorem nodup_getElem_unique {α : Type _} {l : List α} (hnd : l.Nodup)
    {i j : Nat} {c : α} (hi : l[i]? = some c) (hj : l[j]? = some c) : i = j := by
  obtain ⟨hi2, hci⟩ := List.getElem?_eq_some.mp hi
  obtain ⟨hj2, hcj⟩ := List.getElem?_eq_some.mp hj
  have h2 : l.get ⟨i, hi2⟩ = l.get ⟨j, hj2⟩ := by
    rw [List.get_eq_getElem, List.get_eq_getElem, hci, hcj]
  exact congrArg Fin.val (hnd.get_inj_iff.mp h2)

theorem simLE_trans : ∀ (a b c : ScoredItem), simLE a b → simLE b c → simLE a c := by
  intro a b c hab hbc
  simp only [simLE, decide_eq_true_eq] at hab hbc ⊢
  exact le_trans hbc hab

theorem simLE_total : ∀ (a b : ScoredItem), simLE a b || simLE b a := by
  intro a b
  simp only [simLE]
  cases le_total b.similarity a.similarity with
  | inl h => simp [h]
  | inr h => simp [h]

theorem length_scoredList (cfg : Bool) (backend : String → Option (List ℝ))
    (q : List ℝ) (items : List Item) :
    (scoredList cfg backend q items).length = items.length := by
  simp [scoredList, List.enum_length]

theorem map_origIdx_scoredList (cfg : Bool) (backend : String → Option (List ℝ))
    (q : List ℝ) (items : List Item) :
    (scoredList cfg backend q items).map (fun s => s.origIdx) =
      List.range items.length := by
  unfold scoredList
  rw [List.map_map]
  show List.map Prod.fst items.enum = _
  exact List.enum_map_fst items

theorem nodup_map_origIdx_scoredList (cfg : Bool)
    (backend : String → Option (List ℝ)) (q : List ℝ) (items : List Item) :
    ((scoredList cfg backend q items).map (fun s => s.origIdx)).Nodup := by
  rw [map_origIdx_scoredList]
  exact List.nodup_range items.length

theorem getElem?_scoredList (cfg : Bool) (backend : String → Option (List ℝ))
    (q : List ℝ) (items : List Item) (k : Nat) :
    (scoredList cfg backend q items)[k]? =
      (items[k]?).map (fun it => scoreOne cfg backend q items k it) := by
  unfold scoredList
  rw [List.getElem?_map, List.getElem?_enum]
  cases items[k]? <;> rfl

theorem mem_scoredList_getElem {cfg : Bool} {backend : String → Option (List ℝ)}
    {q : List ℝ} {items : List Item} {z : ScoredItem}
    (hz : z ∈ scoredList cfg backend q items) :
    (scoredList cfg backend q items)[z.origIdx]? = some z := by
  obtain ⟨k, hk, hzk⟩ := List.getElem_of_mem hz
  have hk2 : k < items.length := by
    have := length_scoredList cfg backend q items
    omega
  have hitk : items[k]? = some (items.get ⟨k, hk2⟩) := by
    rw [List.get_eq_getElem]
    exact List.getElem?_eq_getElem hk2
  have hz2 : z = scoreOne cfg backend q items k (items.get ⟨k, hk2⟩) := by
    have h1 := getElem?_scoredList cfg backend q items k
    rw [hitk] at h1
    simp only [Option.map_some'] at h1
    have h2 : (scoredList cfg backend q items)[k]? = some z := by
      rw [List.getElem?_eq_getElem hk, hzk]
    rw [h2] at h1
    exact Option.some.inj h1
  have hidx : z.origIdx = k := by rw [hz2]; rfl
  rw [hidx, List.getElem?_eq_getElem hk, hzk]

/-- C3: every successful search response has exactly one result per input
item — it is a permutation of the in-input-order scored list, with equal
length — sorted by similarity in descending order, and the sort is stable:
two results with equal similarity appear in the caller's input order
(strictly increasing enumerate index). -/
theorem search_results_sorted_stable
    (cfg : Bool) (backend : String → Option (List ℝ)) (query : String)
    (items : List Item) (rs : List ScoredItem)
    (h : search_endpoint cfg backend query items = .ok rs) :
    rs.length = items.length ∧
    (∃ qe, gemini_embed_text cfg backend (pyStrip query) = .ok qe ∧
      rs.Perm (scoredList cfg backend qe items)) ∧
    rs.Pairwise (fun a b => b.similarity ≤ a.similarity) ∧
    (∀ (i j : Nat) (hi : i < rs.length) (hj : j < rs.length), i < j →
      (rs.get ⟨i, hi⟩).similarity = (rs.get ⟨j, hj⟩).similarity →
      (rs.get ⟨i, hi⟩).origIdx < (rs.get ⟨j, hj⟩).origIdx) := by
  simp only [search_endpoint] at h
  by_cases hq : pyStrip query = ""
  · rw [if_pos hq] at h
    simp at h
  rw [if_neg hq] at h
  cases hge : gemini_embed_text cfg backend (pyStrip query) with
  | error e => rw [hge] at h; simp at h
  | ok qe =>
    rw [hge] at h
    simp only [Except.ok.injEq] at h
    subst h
    have hperm : (sortResults (scoredList cfg backend qe items)).Perm
        (scoredList cfg backend qe items) :=
      List.mergeSort_perm (scoredList cfg backend qe items) simLE
    refine ⟨?_, ⟨qe, rfl, hperm⟩, ?_, ?_⟩
    · rw [hperm.length_eq]
      exact length_scoredList cfg backend qe items
    · have hs := List.sorted_mergeSort simLE_trans simLE_total
        (scoredList cfg backend qe items)
      exact hs.imp fun hab => by
        simpa only [simLE, decide_eq_true_eq] using hab
    · intro i j hi hj hij heq
      have hndmap : ((sortResults (scoredList cfg backend qe items)).map
          (fun s => s.origIdx)).Nodup := by
        rw [(hperm.map (fun s => s.origIdx)).nodup_iff]
        exact nodup_map_origIdx_scoredList cfg backend qe items
      have hix : (sortResults (scoredList cfg backend qe items))[i]? =
          some ((sortResults (scoredList cfg backend qe items)).get ⟨i, hi⟩) := by
        rw [List.get_eq_getElem]
        exact List.getElem?_eq_getElem hi
      have hjy : (sortResults (scoredList cfg backend qe items))[j]? =
          some ((sortResults (scoredList cfg backend qe items)).get ⟨j, hj⟩) := by
        rw [List.get_eq_getElem]
        exact List.getElem?_eq_getElem hj
      have hne2 : ((sortResults (scoredList cfg backend qe items)).get
          ⟨i, hi⟩).origIdx ≠
          ((sortResults (scoredList cfg backend qe items)).get ⟨j, hj⟩).origIdx := by
        intro hxy
        have hgi : ((sortResults (scoredList cfg backend qe items)).map
            (fun s => s.origIdx))[i]? = some (((sortResults
            (scoredList cfg backend qe items)).get ⟨i, hi⟩).origIdx) := by
          rw [List.getElem?_map, hix]
          rfl
        have hgj : ((sortResults (scoredList cfg backend qe items)).map
            (fun s => s.origIdx))[j]? = some (((sortResults
            (scoredList cfg backend qe items)).get ⟨i, hi⟩).origIdx) := by
          rw [List.getElem?_map, hjy, hxy]
          rfl
        have := nodup_getElem_unique hndmap hgi hgj
        omega
      rcases Nat.lt_or_ge ((sortResults (scoredList cfg backend qe items)).get
          ⟨i, hi⟩).origIdx (((sortResults (scoredList cfg backend qe
          items)).get ⟨j, hj⟩).origIdx) with hlt | hge2
      · exact hlt
      exfalso
      have hgt : ((sortResults (scoredList cfg backend qe items)).get
          ⟨j, hj⟩).origIdx < ((sortResults (scoredList cfg backend qe
          items)).get ⟨i, hi⟩).origIdx :=
        lt_of_le_of_ne hge2 (Ne.symm hne2)
      have hxL : (sortResults (scoredList cfg backend qe items)).get ⟨i, hi⟩ ∈
          scoredList cfg backend qe items :=
        hperm.subset (List.get_mem _ _ _)
      have hyL : (sortResults (scoredList cfg backend qe items)).get ⟨j, hj⟩ ∈
          scoredList cfg backend qe items :=
        hperm.subset (List.get_mem _ _ _)
      have hsub : List.Sublist
          [(sortResults (scoredList cfg backend qe items)).get ⟨j, hj⟩,
          (sortResults (scoredList cfg backend qe items)).get ⟨i, hi⟩]
          (scoredList cfg backend qe items) :=
        pair_sublist_of_getElem hgt (mem_scoredList_getElem hyL)
          (mem_scoredList_getElem hxL)
      have hle : simLE ((sortResults (scoredList cfg backend qe items)).get
          ⟨j, hj⟩) ((sortResults (scoredList cfg backend qe items)).get ⟨i, hi⟩) := by
        simp only [simLE, decide_eq_true_eq]
        exact le_of_eq heq
      have hsub2 : List.Sublist
          [(sortResults (scoredList cfg backend qe items)).get ⟨j, hj⟩,
          (sortResults (scoredList cfg backend qe items)).get ⟨i, hi⟩]
          (sortResults (scoredList cfg backend qe items)) :=
        List.pair_sublist_mergeSort simLE_trans simLE_total hle hsub
      obtain ⟨p, p2, hpp, hp, hp2⟩ := exists_getElem_of_pair_sublist hsub2
      have hmp : ((sortResults (scoredList cfg backend qe items)).map
          (fun s => s.origIdx))[p]? = some (((sortResults (scoredList cfg
          backend qe items)).get ⟨j, hj⟩).origIdx) := by
        rw [List.getElem?_map, hp]
        rfl
      have hmj : ((sortResults (scoredList cfg backend qe items)).map
          (fun s => s.origIdx))[j]? = some (((sortResults (scoredList cfg
          backend qe items)).get ⟨j, hj⟩).origIdx) := by
        rw [List.getElem?_map, hjy]
        rfl
      have hmp2 : ((sortResults (scoredList cfg backend qe items)).map
          (fun s => s.origIdx))[p2]? = some (((sortResults (scoredList cfg
          backend qe items)).get ⟨i, hi⟩).origIdx) := by
        rw [List.getElem?_map, hp2]
        rfl
      have hmi : ((sortResults (scoredList cfg backend qe items)).map
          (fun s => s.origIdx))[i]? = some (((sortResults (scoredList cfg
          backend qe items)).get ⟨i, hi⟩).origIdx) := by
        rw [List.getElem?_map, hix]
        rfl
      have hpj : p = j := nodup_getElem_unique hndmap hmp hmj
      have hpi : p2 = i := nodup_getElem_unique hndmap hmp2 hmi
      omega

/-- C3 witness: a concrete successful search over one item returns exactly
one result, and the sorted/stable conclusions hold for it. -/
theorem search_results_sorted_stable_witness :
    search_endpoint true unitBackend "q" [walletItem] =
      .ok [{ origIdx := 0, similarity := 1, item := walletItem }] ∧
    ([({ origIdx := 0, similarity := 1, item := walletItem } : ScoredItem)]).length =
      [walletItem].length ∧
    ([({ origIdx := 0, similarity := 1, item := walletItem } :
      ScoredItem)]).Pairwise (fun a b => b.similarity ≤ a.similarity) := by
  have hwr : workerResult true unitBackend ([(1 : ℝ), 0, 0]).length walletItem =
      [1, 0, 0] := by
    unfold workerResult
    rw [gemini_unitBackend]
  have hrm : resultsMap true unitBackend ([(1 : ℝ), 0, 0]).length [walletItem] 0 =
      some [(1 : ℝ), 0, 0] := by
    unfold resultsMap
    simp only [List.getElem?_cons_zero]
    rw [if_pos (show walletItem.embedding = [] from rfl), hwr]
  have hiv : itemVector true unitBackend ([(1 : ℝ), 0, 0]).length [walletItem] 0
      walletItem = [1, 0, 0] := by
    unfold itemVector
    rw [if_neg (by simp [walletItem]), hrm]
    rfl
  have hso : scoreOne true unitBackend [(1 : ℝ), 0, 0] [walletItem] 0 walletItem =
      { origIdx := 0, similarity := 1, item := walletItem } := by
    unfold scoreOne
    rw [hiv]
    have hs : simOf [(1 : ℝ), 0, 0] [(1 : ℝ), 0, 0] = 1 := by
      simp [simOf, dot]
    rw [hs]
  have h0 : search_endpoint true unitBackend "q" [walletItem] =
      .ok [{ origIdx := 0, similarity := 1, item := walletItem }] := by
    simp only [search_endpoint]
    rw [if_neg (by decide : ¬(pyStrip "q" = "")), gemini_unitBackend]
    show Except.ok (sortResults (scoredList true unitBackend [(1 : ℝ), 0, 0]
      [walletItem])) = _
    have hsl : scoredList true unitBackend [(1 : ℝ), 0, 0] [walletItem] =
        [scoreOne true unitBackend [(1 : ℝ), 0, 0] [walletItem] 0 walletItem] := rfl
    rw [hsl, hso]
    simp [sortResults]
  have h := search_results_sorted_stable true unitBackend "q" [walletItem] _ h0
  exact ⟨h0, h.1, h.2.2.1⟩

end MLService
